import Mathlib

/-
  Verification development for the DrNex real-time audio subsystem.

  The definitions below are a shallow embedding of the source:
  - the playback scheduler of components/VoiceAvatarModal.tsx
    (onAudioData callback: nextStartTimeRef clamping and advancement,
    isTalking indicator, source.onended handler);
  - the avatar live-session lifecycle of services/geminiService.ts
    (connectLiveTriageSession: getUserMedia before ai.live.connect,
    the isCleaningUp flag, the returned stop function, the
    onopen/onmessage/onclose/onerror callbacks);
  - the capture-to-network send pipeline shared verbatim by
    connectLiveTriageSession and startLiveDictation
    (processor.onaudioprocess registering a continuation on
    sessionPromise that checks isCleaningUp at run time);
  - the dictation onmessage handler of startLiveDictation;
  - the PCM sample encoder/decoder of utils/audioUtils
    (createPcmBlob / decodeAudioData), which is not part of the
    sources available here and is therefore modelled from the spec.

  Times and amplitudes are rationals; counters are naturals.
-/

namespace DrNex

/-! ## Playback scheduler (VoiceAvatarModal.onAudioData)

Source (components/VoiceAvatarModal.tsx):
  const currentTime = ctx.currentTime;
  if (nextStartTimeRef.current < currentTime) {
      nextStartTimeRef.current = currentTime;
  }
  source.start(nextStartTimeRef.current);
  nextStartTimeRef.current += buffer.duration;

A chunk event is a pair (clock, dur): the output-clock reading at the
moment the chunk is scheduled, and the decoded buffer's duration. -/

/-- Start time chosen for one buffer: the cursor clamped forward to the
clock, exactly the source's `if (nextStartTime < currentTime)` reset. -/
def schedStart (cursor clock : ℚ) : ℚ :=
  if cursor < clock then clock else cursor

/-- Start times produced by scheduling a list of chunk events
(clock reading, buffer duration) from initial cursor `c`. -/
def scheduleStarts (c : ℚ) : List (ℚ × ℚ) → List ℚ
  | [] => []
  | (t, d) :: rest => schedStart c t :: scheduleStarts (schedStart c t + d) rest

theorem clock_le_schedStart (cursor clock : ℚ) : clock ≤ schedStart cursor clock := by
  by_cases h : cursor < clock
  · simp [schedStart, h]
  · simp only [schedStart, if_neg h]
    exact le_of_not_lt h

theorem cursor_le_schedStart (cursor clock : ℚ) : cursor ≤ schedStart cursor clock := by
  by_cases h : cursor < clock
  · simp only [schedStart, if_pos h]
    exact le_of_lt h
  · simp [schedStart, h]

theorem schedStart_eq_of_clock_le (cursor clock : ℚ) (h : clock ≤ cursor) :
    schedStart cursor clock = cursor := by
  simp [schedStart, not_lt.mpr h]

theorem scheduleStarts_length (c : ℚ) (evs : List (ℚ × ℚ)) :
    (scheduleStarts c evs).length = evs.length := by
  induction evs generalizing c with
  | nil => rfl
  | cons p rest ih =>
      obtain ⟨t, d⟩ := p
      simp [scheduleStarts, ih]

theorem scheduleStarts_start_ge_clock (c : ℚ) (evs : List (ℚ × ℚ)) (i : ℕ)
    (hi : i < evs.length) :
    (evs.getD i (0, 0)).1 ≤ (scheduleStarts c evs).getD i 0 := by
  induction evs generalizing c i with
  | nil => simp at hi
  | cons p rest ih =>
      obtain ⟨t, d⟩ := p
      cases i with
      | zero =>
          simpa [scheduleStarts] using clock_le_schedStart c t
      | succ n =>
          simp only [scheduleStarts, List.getD_cons_succ]
          exact ih (schedStart c t + d) n (by simpa using hi)

theorem scheduleStarts_no_overlap (c : ℚ) (evs : List (ℚ × ℚ)) (i : ℕ)
    (hi : i + 1 < evs.length) :
    (scheduleStarts c evs).getD i 0 + (evs.getD i (0, 0)).2
      ≤ (scheduleStarts c evs).getD (i + 1) 0 := by
  induction evs generalizing c i with
  | nil => simp at hi
  | cons p rest ih =>
      obtain ⟨t, d⟩ := p
      cases i with
      | zero =>
          cases rest with
          | nil => simp at hi
          | cons q rest2 =>
              obtain ⟨t2, d2⟩ := q
              simpa [scheduleStarts] using
                cursor_le_schedStart (schedStart c t + d) t2
      | succ n =>
          simp only [scheduleStarts, List.getD_cons_succ]
          exact ih (schedStart c t + d) n (by simpa using hi)

theorem scheduleStarts_no_gap (c : ℚ) (evs : List (ℚ × ℚ)) (i : ℕ)
    (hi : i + 1 < evs.length)
    (hcl : (evs.getD (i + 1) (0, 0)).1
        ≤ (scheduleStarts c evs).getD i 0 + (evs.getD i (0, 0)).2) :
    (scheduleStarts c evs).getD (i + 1) 0
      = (scheduleStarts c evs).getD i 0 + (evs.getD i (0, 0)).2 := by
  induction evs generalizing c i with
  | nil => simp at hi
  | cons p rest ih =>
      obtain ⟨t, d⟩ := p
      cases i with
      | zero =>
          cases rest with
          | nil => simp at hi
          | cons q rest2 =>
              obtain ⟨t2, d2⟩ := q
              simp only [scheduleStarts, List.getD_cons_succ, List.getD_cons_zero] at hcl ⊢
              exact schedStart_eq_of_clock_le _ _ hcl
      | succ n =>
          simp only [scheduleStarts, List.getD_cons_succ] at hcl ⊢
          exact ih (schedStart c t + d) n (by simpa using hi) hcl

theorem scheduleStarts_monotone (c : ℚ) (evs : List (ℚ × ℚ))
    (hd : ∀ p ∈ evs, 0 ≤ p.2) (i : ℕ) (hi : i + 1 < evs.length) :
    (scheduleStarts c evs).getD i 0 ≤ (scheduleStarts c evs).getD (i + 1) 0 := by
  have hdur : 0 ≤ (evs.getD i (0, 0)).2 := by
    have hlt : i < evs.length := Nat.lt_of_succ_lt hi
    rw [List.getD_eq_getElem _ _ hlt]
    exact hd _ (List.getElem_mem hlt)
  calc (scheduleStarts c evs).getD i 0
      ≤ (scheduleStarts c evs).getD i 0 + (evs.getD i (0, 0)).2 := by linarith
    _ ≤ (scheduleStarts c evs).getD (i + 1) 0 := scheduleStarts_no_overlap c evs i hi

/-- The conjunction of the four C1 schedule properties: each start is at
least the clock reading at its scheduling moment; consecutive buffers do
not overlap; start times are non-decreasing; and when the clock has not
passed the cursor the next start equals previous start plus previous
duration (no gap). -/
def SchedulerMonotoneSpec (c : ℚ) (evs : List (ℚ × ℚ)) : Prop :=
  (∀ i, i < evs.length →
    (evs.getD i (0, 0)).1 ≤ (scheduleStarts c evs).getD i 0) ∧
  (∀ i, i + 1 < evs.length →
    (scheduleStarts c evs).getD i 0 + (evs.getD i (0, 0)).2
      ≤ (scheduleStarts c evs).getD (i + 1) 0) ∧
  (∀ i, i + 1 < evs.length →
    (scheduleStarts c evs).getD i 0 ≤ (scheduleStarts c evs).getD (i + 1) 0) ∧
  (∀ i, i + 1 < evs.length →
    (evs.getD (i + 1) (0, 0)).1
        ≤ (scheduleStarts c evs).getD i 0 + (evs.getD i (0, 0)).2 →
    (scheduleStarts c evs).getD (i + 1) 0
      = (scheduleStarts c evs).getD i 0 + (evs.getD i (0, 0)).2)

/-- C1: for every sequence of inbound chunks in any timing pattern, each
buffer is scheduled at max(clock, cursor) and the cursor advances by the
buffer's duration, so the start times are non-decreasing, each start is
at least the clock at the moment of scheduling and at least the previous
start plus the previous duration (no overlap), and when the clock has
not passed the cursor each start equals the previous start plus the
previous duration (no gap). -/
theorem playback_scheduling_monotone_gapless (c : ℚ) (evs : List (ℚ × ℚ))
    (hd : ∀ p ∈ evs, 0 ≤ p.2) : SchedulerMonotoneSpec c evs :=
  ⟨fun i hi => scheduleStarts_start_ge_clock c evs i hi,
   fun i hi => scheduleStarts_no_overlap c evs i hi,
   fun i hi => scheduleStarts_monotone c evs hd i hi,
   fun i hi hcl => scheduleStarts_no_gap c evs i hi hcl⟩

/-- Witness for C1 at a concrete three-chunk trace with jittered arrival
clocks 0, 2, 2 and durations 1, 1/2, 1/2. -/
theorem playback_scheduling_monotone_gapless_witness :
    (∀ p ∈ [((0 : ℚ), (1 : ℚ)), (2, 1/2), (2, 1/2)], 0 ≤ p.2) ∧
    SchedulerMonotoneSpec 0 [((0 : ℚ), (1 : ℚ)), (2, 1/2), (2, 1/2)] := by
  have h : ∀ p ∈ [((0 : ℚ), (1 : ℚ)), (2, 1/2), (2, 1/2)], 0 ≤ p.2 := by
    intro p hp
    simp only [List.mem_cons, List.not_mem_nil, or_false] at hp
    rcases hp with h1 | h1 | h1 <;> rw [h1] <;> norm_num
  exact ⟨h, playback_scheduling_monotone_gapless 0 _ h⟩

/-! ## Avatar live-session lifecycle (connectLiveTriageSession)

Source (services/geminiService.ts): the returned stop function is

  return () => {
    isCleaningUp = true;
    if (stream) stream.getTracks().forEach(t => t.stop());
    if (source) source.disconnect();
    if (processor) processor.disconnect();
    if (audioContext && audioContext.state !== 'closed') audioContext.close();
    if (activeSession) { activeSession.close(); }
    else { sessionPromise.then(s => s.close()); }
  };

and the session callbacks are

  onopen:  () => { onOpen(); }
  onclose: () => { if (!isCleaningUp) onClose(); }
  onerror: (err) => { onClose(); }

with `sessionPromise.then(s => { activeSession = s; })` registered before
any stop can add its own `.then(s => s.close())`, so on resolution the
pending close continuations run after activeSession is set.

The state records, for each underlying release step, how many times it
has executed. Calling `audioContext.close()` sets the context's
control-thread state to 'closed' synchronously (the `state` getter reads
that flag), so the source's guard `audioContext.state !== 'closed'`
blocks every re-invocation: the device close executes at most once. -/

structure AvatarState where
  isCleaningUp : Bool
  activeSession : Bool
  pendingCloses : ℕ
  trackStopRuns : ℕ
  sourceDisconnects : ℕ
  processorDisconnects : ℕ
  ctxClosed : Bool
  ctxCloseCalls : ℕ
  sessionCloses : ℕ
  onOpenCalls : ℕ
  onCloseCalls : ℕ
deriving DecidableEq, Repr

def initAvatarState : AvatarState :=
  { isCleaningUp := false
    activeSession := false
    pendingCloses := 0
    trackStopRuns := 0
    sourceDisconnects := 0
    processorDisconnects := 0
    ctxClosed := false
    ctxCloseCalls := 0
    sessionCloses := 0
    onOpenCalls := 0
    onCloseCalls := 0 }

inductive AvatarEvent
  | openEvt
  | resolve
  | stop
  | remoteClose
  | transportError
deriving DecidableEq, Repr

def avatarStep (st : AvatarState) : AvatarEvent → AvatarState
  | AvatarEvent.openEvt => { st with onOpenCalls := st.onOpenCalls + 1 }
  | AvatarEvent.resolve =>
      { st with activeSession := true
                sessionCloses := st.sessionCloses + st.pendingCloses
                pendingCloses := 0 }
  | AvatarEvent.remoteClose =>
      if st.isCleaningUp then st
      else { st with onCloseCalls := st.onCloseCalls + 1 }
  | AvatarEvent.transportError => { st with onCloseCalls := st.onCloseCalls + 1 }
  | AvatarEvent.stop =>
      let st1 := { st with isCleaningUp := true
                           trackStopRuns := st.trackStopRuns + 1
                           sourceDisconnects := st.sourceDisconnects + 1
                           processorDisconnects := st.processorDisconnects + 1 }
      let st2 :=
        if st1.ctxClosed then st1
        else { st1 with ctxClosed := true
                        ctxCloseCalls := st1.ctxCloseCalls + 1 }
      if st2.activeSession then { st2 with sessionCloses := st2.sessionCloses + 1 }
      else { st2 with pendingCloses := st2.pendingCloses + 1 }

def runAvatar (st : AvatarState) (evs : List AvatarEvent) : AvatarState :=
  evs.foldl avatarStep st

/-- State after a successful handshake (promise resolved, onopen fired). -/
def openAvatarState : AvatarState :=
  runAvatar initAvatarState [AvatarEvent.resolve, AvatarEvent.openEvt]

theorem avatarStep_preserves_cleanup (st : AvatarState) (e : AvatarEvent)
    (h : st.isCleaningUp = true) : (avatarStep st e).isCleaningUp = true := by
  cases e <;> simp only [avatarStep] <;> (try split) <;> (try split) <;> simp [h]

theorem runAvatar_preserves_cleanup (evs : List AvatarEvent) (st : AvatarState)
    (h : st.isCleaningUp = true) : (runAvatar st evs).isCleaningUp = true := by
  induction evs generalizing st with
  | nil => exact h
  | cons e rest ih =>
      exact ih (avatarStep st e) (avatarStep_preserves_cleanup st e h)

/-- Number of stop invocations in an event list. -/
def countStops : List AvatarEvent → ℕ
  | [] => 0
  | e :: rest => (if e = AvatarEvent.stop then 1 else 0) + countStops rest

/-- C2 counterexample: invoking the stop function twice after the
handshake has completed executes the media-track stop, the tap
disconnects and the session close twice each, not exactly once: the stop
closure sets isCleaningUp but never consults it, so those release steps
are not guarded against re-execution (only the device close is blocked,
by the context's closed state). -/
theorem stop_not_idempotent_counterexample :
    (runAvatar openAvatarState [AvatarEvent.stop, AvatarEvent.stop]).trackStopRuns = 2 ∧
    (runAvatar openAvatarState [AvatarEvent.stop, AvatarEvent.stop]).sourceDisconnects = 2 ∧
    (runAvatar openAvatarState [AvatarEvent.stop, AvatarEvent.stop]).sessionCloses = 2 ∧
    ¬ (runAvatar openAvatarState [AvatarEvent.stop, AvatarEvent.stop]).trackStopRuns = 1 := by
  refine ⟨rfl, rfl, rfl, ?_⟩
  decide

/-- Release-step counts after an interleaving of stop invocations with
remote-close and transport-error deliveries, starting from the
post-handshake state: the media-track stop, the tap disconnects and the
session close execute once per stop invocation, while the device close
— guarded by the context's closed state — executes at most once. -/
def StopReleaseCounts (evs : List AvatarEvent) : Prop :=
  (runAvatar openAvatarState evs).trackStopRuns = countStops evs ∧
  (runAvatar openAvatarState evs).sourceDisconnects = countStops evs ∧
  (runAvatar openAvatarState evs).processorDisconnects = countStops evs ∧
  (runAvatar openAvatarState evs).sessionCloses = countStops evs ∧
  (runAvatar openAvatarState evs).ctxCloseCalls = min (countStops evs) 1 ∧
  (1 ≤ countStops evs → (runAvatar openAvatarState evs).isCleaningUp = true)

theorem stopRelease_aux (evs : List AvatarEvent)
    (h : ∀ e ∈ evs, e = AvatarEvent.stop ∨ e = AvatarEvent.remoteClose ∨
          e = AvatarEvent.transportError)
    (st : AvatarState) (hA : st.activeSession = true) :
    (runAvatar st evs).trackStopRuns = st.trackStopRuns + countStops evs ∧
    (runAvatar st evs).sourceDisconnects = st.sourceDisconnects + countStops evs ∧
    (runAvatar st evs).processorDisconnects = st.processorDisconnects + countStops evs ∧
    (runAvatar st evs).sessionCloses = st.sessionCloses + countStops evs ∧
    (st.ctxClosed = true → (runAvatar st evs).ctxCloseCalls = st.ctxCloseCalls) ∧
    (st.ctxClosed = false →
      (runAvatar st evs).ctxCloseCalls = st.ctxCloseCalls + min (countStops evs) 1) ∧
    (1 ≤ countStops evs → (runAvatar st evs).isCleaningUp = true) := by
  induction evs generalizing st with
  | nil =>
      refine ⟨rfl, rfl, rfl, rfl, fun _ => rfl, ?_, ?_⟩
      · intro _
        simp [countStops, runAvatar]
      · intro hcontra
        simp [countStops] at hcontra
  | cons e rest ih =>
      have he := h e (List.mem_cons_self e rest)
      have hrest : ∀ e ∈ rest, e = AvatarEvent.stop ∨ e = AvatarEvent.remoteClose ∨
          e = AvatarEvent.transportError :=
        fun x hx => h x (List.mem_cons_of_mem e hx)
      have hcount : ∀ x rest2, countStops (x :: rest2)
          = (if x = AvatarEvent.stop then 1 else 0) + countStops rest2 := fun _ _ => rfl
      rcases he with he | he | he
      · subst he
        have hrun : runAvatar st (AvatarEvent.stop :: rest)
            = runAvatar (avatarStep st AvatarEvent.stop) rest := rfl
        cases hcx : st.ctxClosed with
        | true =>
            have hstep : avatarStep st AvatarEvent.stop =
                { st with isCleaningUp := true
                          trackStopRuns := st.trackStopRuns + 1
                          sourceDisconnects := st.sourceDisconnects + 1
                          processorDisconnects := st.processorDisconnects + 1
                          sessionCloses := st.sessionCloses + 1 } := by
              simp [avatarStep, hcx, hA]
            rw [hrun, hstep]
            obtain ⟨h1, h2, h3, h4, h5t, _, _⟩ :=
              ih hrest
                { st with isCleaningUp := true
                          trackStopRuns := st.trackStopRuns + 1
                          sourceDisconnects := st.sourceDisconnects + 1
                          processorDisconnects := st.processorDisconnects + 1
                          sessionCloses := st.sessionCloses + 1 }
                hA
            refine ⟨?_, ?_, ?_, ?_, ?_, ?_, ?_⟩
            · rw [h1, hcount]; simp; omega
            · rw [h2, hcount]; simp; omega
            · rw [h3, hcount]; simp; omega
            · rw [h4, hcount]; simp; omega
            · intro _
              exact h5t hcx
            · intro hf
              exact Bool.noConfusion hf
            · intro _
              exact runAvatar_preserves_cleanup rest _ rfl
        | false =>
            have hstep : avatarStep st AvatarEvent.stop =
                { st with isCleaningUp := true
                          trackStopRuns := st.trackStopRuns + 1
                          sourceDisconnects := st.sourceDisconnects + 1
                          processorDisconnects := st.processorDisconnects + 1
                          ctxClosed := true
                          ctxCloseCalls := st.ctxCloseCalls + 1
                          sessionCloses := st.sessionCloses + 1 } := by
              simp [avatarStep, hcx, hA]
            rw [hrun, hstep]
            obtain ⟨h1, h2, h3, h4, h5t, _, _⟩ :=
              ih hrest
                { st with isCleaningUp := true
                          trackStopRuns := st.trackStopRuns + 1
                          sourceDisconnects := st.sourceDisconnects + 1
                          processorDisconnects := st.processorDisconnects + 1
                          ctxClosed := true
                          ctxCloseCalls := st.ctxCloseCalls + 1
                          sessionCloses := st.sessionCloses + 1 }
                hA
            refine ⟨?_, ?_, ?_, ?_, ?_, ?_, ?_⟩
            · rw [h1, hcount]; simp; omega
            · rw [h2, hcount]; simp; omega
            · rw [h3, hcount]; simp; omega
            · rw [h4, hcount]; simp; omega
            · intro htrue
              exact Bool.noConfusion htrue
            · intro _
              rw [h5t rfl, hcount]
              simp
            · intro _
              exact runAvatar_preserves_cleanup rest _ rfl
      · subst he
        have hrun : runAvatar st (AvatarEvent.remoteClose :: rest)
            = runAvatar (avatarStep st AvatarEvent.remoteClose) rest := rfl
        by_cases hcu : st.isCleaningUp = true
        · have hstep : avatarStep st AvatarEvent.remoteClose = st := by
            simp [avatarStep, hcu]
          rw [hrun, hstep]
          obtain ⟨h1, h2, h3, h4, h5t, h5f, h6⟩ := ih hrest st hA
          refine ⟨?_, ?_, ?_, ?_, ?_, ?_, ?_⟩
          · rw [h1, hcount]; simp
          · rw [h2, hcount]; simp
          · rw [h3, hcount]; simp
          · rw [h4, hcount]; simp
          · exact h5t
          · intro hf
            rw [h5f hf, hcount]
            simp
          · intro hc
            exact h6 (by rw [hcount] at hc; simpa using hc)
        · have hstep : avatarStep st AvatarEvent.remoteClose =
              { st with onCloseCalls := st.onCloseCalls + 1 } := by
            simp [avatarStep, hcu]
          rw [hrun, hstep]
          obtain ⟨h1, h2, h3, h4, h5t, h5f, h6⟩ :=
            ih hrest { st with onCloseCalls := st.onCloseCalls + 1 } hA
          refine ⟨?_, ?_, ?_, ?_, ?_, ?_, ?_⟩
          · rw [h1, hcount]; simp
          · rw [h2, hcount]; simp
          · rw [h3, hcount]; simp
          · rw [h4, hcount]; simp
          · exact h5t
          · intro hf
            rw [h5f hf, hcount]
            simp
          · intro hc
            exact h6 (by rw [hcount] at hc; simpa using hc)
      · subst he
        have hrun : runAvatar st (AvatarEvent.transportError :: rest)
            = runAvatar (avatarStep st AvatarEvent.transportError) rest := rfl
        have hstep : avatarStep st AvatarEvent.transportError =
            { st with onCloseCalls := st.onCloseCalls + 1 } := rfl
        rw [hrun, hstep]
        obtain ⟨h1, h2, h3, h4, h5t, h5f, h6⟩ :=
          ih hrest { st with onCloseCalls := st.onCloseCalls + 1 } hA
        refine ⟨?_, ?_, ?_, ?_, ?_, ?_, ?_⟩
        · rw [h1, hcount]; simp
        · rw [h2, hcount]; simp
        · rw [h3, hcount]; simp
        · rw [h4, hcount]; simp
        · exact h5t
        · intro hf
          rw [h5f hf, hcount]
          simp
        · intro hc
          exact h6 (by rw [hcount] at hc; simpa using hc)

/-- C2 amended: the stop function is cancel-safe from any state,
including mid-handshake where the deferred session close is drained once
the promise resolves, and it sets the cleaning-up flag; but the
media-track stop, the tap disconnects and the session close are not
guarded, so N invocations, in any order relative to remote-close or
transport-error deliveries, execute each of them N times, not exactly
once; only the audio-device close, guarded by the context's closed
state, executes exactly once (at the first invocation). -/
theorem stop_release_step_counts (evs : List AvatarEvent)
    (h : ∀ e ∈ evs, e = AvatarEvent.stop ∨ e = AvatarEvent.remoteClose ∨
          e = AvatarEvent.transportError) :
    StopReleaseCounts evs ∧
    (runAvatar initAvatarState [AvatarEvent.stop, AvatarEvent.resolve]).sessionCloses = 1 ∧
    (runAvatar initAvatarState [AvatarEvent.stop, AvatarEvent.resolve]).pendingCloses = 0 := by
  refine ⟨?_, rfl, rfl⟩
  obtain ⟨h1, h2, h3, h4, h5t, h5f, h6⟩ :=
    stopRelease_aux evs h openAvatarState rfl
  have e1 : openAvatarState.trackStopRuns = 0 := rfl
  have e2 : openAvatarState.sourceDisconnects = 0 := rfl
  have e3 : openAvatarState.processorDisconnects = 0 := rfl
  have e4 : openAvatarState.sessionCloses = 0 := rfl
  have e5 : openAvatarState.ctxCloseCalls = 0 := rfl
  have hcx : openAvatarState.ctxClosed = false := rfl
  refine ⟨by omega, by omega, by omega, by omega, ?_, h6⟩
  rw [h5f hcx, e5]
  omega

/-- Witness for the amended C2 at a concrete interleaving of two stop
invocations with a remote close and a transport error. -/
theorem stop_release_step_counts_witness :
    (∀ e ∈ [AvatarEvent.stop, AvatarEvent.remoteClose, AvatarEvent.stop,
            AvatarEvent.transportError],
        e = AvatarEvent.stop ∨ e = AvatarEvent.remoteClose ∨
          e = AvatarEvent.transportError) ∧
    (StopReleaseCounts [AvatarEvent.stop, AvatarEvent.remoteClose, AvatarEvent.stop,
        AvatarEvent.transportError] ∧
     (runAvatar initAvatarState [AvatarEvent.stop, AvatarEvent.resolve]).sessionCloses = 1 ∧
     (runAvatar initAvatarState [AvatarEvent.stop, AvatarEvent.resolve]).pendingCloses = 0) := by
  have h : ∀ e ∈ [AvatarEvent.stop, AvatarEvent.remoteClose, AvatarEvent.stop,
      AvatarEvent.transportError],
      e = AvatarEvent.stop ∨ e = AvatarEvent.remoteClose ∨
        e = AvatarEvent.transportError := by decide
  exact ⟨h, stop_release_step_counts _ h⟩

/-- C10: after the stop function has set the cleaning-up flag, a remote
close event does not invoke the caller's onClose callback, whereas a
transport error event still invokes onClose unconditionally. -/
theorem onClose_suppression_after_stop (st : AvatarState)
    (h : st.isCleaningUp = true) :
    (avatarStep st AvatarEvent.remoteClose).onCloseCalls = st.onCloseCalls ∧
    (avatarStep st AvatarEvent.transportError).onCloseCalls = st.onCloseCalls + 1 := by
  constructor
  · simp [avatarStep, h]
  · rfl

/-- Witness for C10 at the state reached by one stop invocation. -/
theorem onClose_suppression_after_stop_witness :
    (runAvatar initAvatarState [AvatarEvent.stop]).isCleaningUp = true ∧
    ((avatarStep (runAvatar initAvatarState [AvatarEvent.stop])
        AvatarEvent.remoteClose).onCloseCalls
      = (runAvatar initAvatarState [AvatarEvent.stop]).onCloseCalls ∧
     (avatarStep (runAvatar initAvatarState [AvatarEvent.stop])
        AvatarEvent.transportError).onCloseCalls
      = (runAvatar initAvatarState [AvatarEvent.stop]).onCloseCalls + 1) := by
  have h : (runAvatar initAvatarState [AvatarEvent.stop]).isCleaningUp = true := rfl
  exact ⟨h, onClose_suppression_after_stop _ h⟩

/-! ## Session start (connectLiveTriageSession setup sequence)

Source order in connectLiveTriageSession: the audio context is created
and resumed, then `navigator.mediaDevices.getUserMedia({ audio: true })`
is awaited; only after it succeeds are the capture tap created and
`ai.live.connect` called, which is the sole place the onopen callback
(and hence the caller's onOpen) is registered. A getUserMedia rejection
therefore propagates out of the async function before any session or
callback exists. -/

structure Env where
  micGranted : Bool
deriving DecidableEq, Repr

inductive StartErr
  | permissionError
deriving DecidableEq, Repr

/-- Setup phase of connectLiveTriageSession: device acquisition happens
before the live connect, so its failure aborts the start with no
callbacks registered; on success the session begins in the initial
lifecycle state (no onOpen call yet). -/
def connectLiveTriageSession (env : Env) : Except StartErr AvatarState :=
  if env.micGranted then Except.ok initAvatarState
  else Except.error StartErr.permissionError

/-- Delivering lifecycle events to a started session; a failed start has
no session and no registered callbacks, so no event is ever processed. -/
def runSession : Except StartErr AvatarState → List AvatarEvent →
    Except StartErr AvatarState
  | Except.error e, _ => Except.error e
  | Except.ok st, evs => Except.ok (runAvatar st evs)

def onOpenCallsOf : Except StartErr AvatarState → ℕ
  | Except.error _ => 0
  | Except.ok st => st.onOpenCalls

/-- C7: if microphone access is denied, starting the avatar session
surfaces the permission failure to the caller, and onOpen is never
invoked in any execution, whatever events follow. -/
theorem permission_denied_no_onOpen (env : Env) (h : env.micGranted = false)
    (evs : List AvatarEvent) :
    connectLiveTriageSession env = Except.error StartErr.permissionError ∧
    onOpenCallsOf (runSession (connectLiveTriageSession env) evs) = 0 := by
  simp [connectLiveTriageSession, h, runSession, onOpenCallsOf]

/-- Witness for C7 at a denied-microphone environment, with an open event
attempted afterwards. -/
theorem permission_denied_no_onOpen_witness :
    (Env.mk false).micGranted = false ∧
    (connectLiveTriageSession (Env.mk false)
        = Except.error StartErr.permissionError ∧
     onOpenCallsOf (runSession (connectLiveTriageSession (Env.mk false))
        [AvatarEvent.openEvt]) = 0) :=
  ⟨rfl, permission_denied_no_onOpen (Env.mk false) rfl [AvatarEvent.openEvt]⟩

/-! ## Capture-to-network send pipeline

Source, identical in connectLiveTriageSession and startLiveDictation:

  processor.onaudioprocess = (e) => {
    const inputData = e.inputBuffer.getChannelData(0);
    const pcmBlob = createPcmBlob(inputData);
    sessionPromise.then(session => {
      if (!isCleaningUp) {
        session.sendRealtimeInput({ media: pcmBlob });
      }
    });
  };

Each capture-tap delivery registers a continuation on sessionPromise.
While the promise is unresolved the continuation waits (`pending`); once
the promise resolves, continuations are queued to run (`queued`) and when
one runs it checks isCleaningUp at that moment and either performs the
send (`sent`) or skips it. The stop function only sets isCleaningUp. -/

structure PipeState where
  resolved : Bool
  isCleaningUp : Bool
  pending : ℕ
  queued : ℕ
  sent : ℕ
deriving DecidableEq, Repr

def initPipeState : PipeState :=
  { resolved := false, isCleaningUp := false, pending := 0, queued := 0, sent := 0 }

inductive PipeEvent
  | frame
  | resolve
  | runNext
  | stop
deriving DecidableEq, Repr

def pipeStep (st : PipeState) : PipeEvent → PipeState
  | PipeEvent.frame =>
      if st.resolved then { st with queued := st.queued + 1 }
      else { st with pending := st.pending + 1 }
  | PipeEvent.resolve =>
      { st with resolved := true, queued := st.queued + st.pending, pending := 0 }
  | PipeEvent.runNext =>
      if st.queued = 0 then st
      else if st.isCleaningUp then { st with queued := st.queued - 1 }
      else { st with queued := st.queued - 1, sent := st.sent + 1 }
  | PipeEvent.stop => { st with isCleaningUp := true }

def runPipe (st : PipeState) (evs : List PipeEvent) : PipeState :=
  evs.foldl pipeStep st

/-- C3 counterexample: a frame captured while the handshake is still
pending is not dropped; its continuation fires after the session promise
resolves and the chunk is sent — a deferred transmission the claim says
never happens. -/
theorem pending_frame_sent_counterexample :
    (runPipe initPipeState [PipeEvent.frame, PipeEvent.resolve, PipeEvent.runNext]).sent = 1 ∧
    ¬ (runPipe initPipeState [PipeEvent.frame, PipeEvent.resolve, PipeEvent.runNext]).sent
        = 0 := by
  exact ⟨rfl, by decide⟩

/-- Number of capture-tap frame deliveries in a pipeline event list. -/
def countFrames : List PipeEvent → ℕ
  | [] => 0
  | e :: rest => (if e = PipeEvent.frame then 1 else 0) + countFrames rest

theorem pipe_conservation_aux (evs : List PipeEvent)
    (h : ∀ e ∈ evs, ¬ e = PipeEvent.stop) (st : PipeState)
    (hcu : st.isCleaningUp = false) :
    (runPipe st evs).sent + (runPipe st evs).pending + (runPipe st evs).queued
      = st.sent + st.pending + st.queued + countFrames evs := by
  induction evs generalizing st with
  | nil => rfl
  | cons e rest ih =>
      have he := h e (List.mem_cons_self e rest)
      have hrest : ∀ e ∈ rest, ¬ e = PipeEvent.stop :=
        fun x hx => h x (List.mem_cons_of_mem e hx)
      have hcount : countFrames (e :: rest)
          = (if e = PipeEvent.frame then 1 else 0) + countFrames rest := rfl
      cases e with
      | frame =>
          have hrun : runPipe st (PipeEvent.frame :: rest)
              = runPipe (pipeStep st PipeEvent.frame) rest := rfl
          by_cases hr : st.resolved = true
          · have hstep : pipeStep st PipeEvent.frame
                = { st with queued := st.queued + 1 } := by simp [pipeStep, hr]
            have hnew := ih hrest { st with queued := st.queued + 1 } hcu
            rw [hrun, hstep, hnew, hcount]
            simp
            omega
          · have hstep : pipeStep st PipeEvent.frame
                = { st with pending := st.pending + 1 } := by simp [pipeStep, hr]
            have hnew := ih hrest { st with pending := st.pending + 1 } hcu
            rw [hrun, hstep, hnew, hcount]
            simp
            omega
      | resolve =>
          have hstep : pipeStep st PipeEvent.resolve
              = { st with resolved := true, queued := st.queued + st.pending,
                          pending := 0 } := rfl
          have hrun : runPipe st (PipeEvent.resolve :: rest)
              = runPipe (pipeStep st PipeEvent.resolve) rest := rfl
          have hnew := ih hrest
            { st with resolved := true, queued := st.queued + st.pending,
                      pending := 0 } hcu
          rw [hrun, hstep, hnew, hcount]
          simp
          omega
      | runNext =>
          have hrun : runPipe st (PipeEvent.runNext :: rest)
              = runPipe (pipeStep st PipeEvent.runNext) rest := rfl
          by_cases hq : st.queued = 0
          · have hstep : pipeStep st PipeEvent.runNext = st := by
              simp [pipeStep, hq]
            have hnew := ih hrest st hcu
            rw [hrun, hstep, hnew, hcount]
            simp
          · have hstep : pipeStep st PipeEvent.runNext
                = { st with queued := st.queued - 1, sent := st.sent + 1 } := by
              simp [pipeStep, hq, hcu]
            have hnew := ih hrest
              { st with queued := st.queued - 1, sent := st.sent + 1 } hcu
            rw [hrun, hstep, hnew, hcount]
            simp
            omega
      | stop => exact absurd rfl he

/-- C3 amended: frames captured while the network session is not yet
open are not dropped — each registers a continuation on the session
promise, and absent teardown every captured frame is either already sent
or still in flight (waiting for the handshake or queued to run); the
only condition under which a frame's send is skipped is the cleaning-up
flag at the moment its continuation runs. -/
theorem pending_frames_deferred_not_dropped (evs : List PipeEvent)
    (h : ∀ e ∈ evs, ¬ e = PipeEvent.stop) :
    (runPipe initPipeState evs).sent + (runPipe initPipeState evs).pending
        + (runPipe initPipeState evs).queued
      = countFrames evs := by
  simpa [initPipeState] using pipe_conservation_aux evs h initPipeState rfl

/-- Witness for the amended C3: two frames captured before the handshake
completes, one continuation run afterwards — one chunk sent, one still
queued, none dropped. -/
theorem pending_frames_deferred_not_dropped_witness :
    (∀ e ∈ [PipeEvent.frame, PipeEvent.frame, PipeEvent.resolve, PipeEvent.runNext],
        ¬ e = PipeEvent.stop) ∧
    (runPipe initPipeState
          [PipeEvent.frame, PipeEvent.frame, PipeEvent.resolve, PipeEvent.runNext]).sent
        + (runPipe initPipeState
          [PipeEvent.frame, PipeEvent.frame, PipeEvent.resolve, PipeEvent.runNext]).pending
        + (runPipe initPipeState
          [PipeEvent.frame, PipeEvent.frame, PipeEvent.resolve, PipeEvent.runNext]).queued
      = countFrames [PipeEvent.frame, PipeEvent.frame, PipeEvent.resolve,
          PipeEvent.runNext] := by
  have h : ∀ e ∈ [PipeEvent.frame, PipeEvent.frame, PipeEvent.resolve, PipeEvent.runNext],
      ¬ e = PipeEvent.stop := by decide
  exact ⟨h, pending_frames_deferred_not_dropped _ h⟩

theorem pipeStep_preserves_cleanup_sent (st : PipeState) (e : PipeEvent)
    (h : st.isCleaningUp = true) :
    (pipeStep st e).isCleaningUp = true ∧ (pipeStep st e).sent = st.sent := by
  cases e with
  | frame => by_cases hr : st.resolved = true <;> simp [pipeStep, hr, h]
  | resolve => exact ⟨h, rfl⟩
  | runNext =>
      by_cases hq : st.queued = 0
      · simp [pipeStep, hq, h]
      · simp [pipeStep, hq, h]
  | stop => exact ⟨rfl, rfl⟩

/-- C9: once the stop function has set the cleaning-up flag, no capture
frame is ever sent on the session again, whatever the interleaving of
further frames, the handshake resolution, and continuation runs: every
continuation checks the flag when it runs and skips the send. -/
theorem no_send_after_teardown (st : PipeState) (h : st.isCleaningUp = true)
    (evs : List PipeEvent) :
    (runPipe st evs).sent = st.sent ∧ (runPipe st evs).isCleaningUp = true := by
  induction evs generalizing st with
  | nil => exact ⟨rfl, h⟩
  | cons e rest ih =>
      obtain ⟨hc, hs⟩ := pipeStep_preserves_cleanup_sent st e h
      obtain ⟨ih1, ih2⟩ := ih (pipeStep st e) hc
      exact ⟨ih1.trans hs, ih2⟩

/-- Witness for C9: a frame captured before teardown, with the handshake
resolving and its continuation running only after stop — nothing is
sent. -/
theorem no_send_after_teardown_witness :
    (runPipe initPipeState [PipeEvent.frame, PipeEvent.stop]).isCleaningUp = true ∧
    ((runPipe (runPipe initPipeState [PipeEvent.frame, PipeEvent.stop])
        [PipeEvent.resolve, PipeEvent.runNext, PipeEvent.frame, PipeEvent.runNext]).sent
      = (runPipe initPipeState [PipeEvent.frame, PipeEvent.stop]).sent ∧
     (runPipe (runPipe initPipeState [PipeEvent.frame, PipeEvent.stop])
        [PipeEvent.resolve, PipeEvent.runNext, PipeEvent.frame,
          PipeEvent.runNext]).isCleaningUp = true) := by
  have h : (runPipe initPipeState [PipeEvent.frame, PipeEvent.stop]).isCleaningUp
      = true := rfl
  exact ⟨h, no_send_after_teardown _ h _⟩

/-! ## Speaking indicator (VoiceAvatarModal isTalking)

Source (components/VoiceAvatarModal.tsx, onAudioData):

  setIsTalking(true);                    // on every inbound chunk
  ... schedule as above ...
  source.onended = () => {
      if (ctx.currentTime >= nextStartTimeRef.current - 0.1) {
          setIsTalking(false);
      }
  };

The indicator is a boolean set on each chunk arrival and cleared by an
end-of-playback notification when the clock is within the 0.1 s guard of
the cursor. -/

structure TalkState where
  cursor : ℚ
  isTalking : Bool
deriving DecidableEq, Repr

inductive TalkEvent
  | chunk (clock dur : ℚ)
  | ended (clock : ℚ)

def talkStep (st : TalkState) : TalkEvent → TalkState
  | TalkEvent.chunk t d =>
      { cursor := schedStart st.cursor t + d, isTalking := true }
  | TalkEvent.ended t =>
      if st.cursor - 1/10 ≤ t then { st with isTalking := false } else st

/-- C5 counterexample: a single 1/20 s chunk arriving at clock time 0
sets the indicator even though the schedule horizon is ahead of the
clock by only 1/20 s, not more than the 1/10 s guard: the indicator is a
boolean toggled on every message, not a derivation asserted exactly
while the horizon is more than the guard ahead. -/
theorem isTalking_not_horizon_derived_counterexample :
    (talkStep { cursor := 0, isTalking := false } (TalkEvent.chunk 0 (1/20))).isTalking
        = true ∧
    ¬ (1/10 : ℚ) <
        (talkStep { cursor := 0, isTalking := false } (TalkEvent.chunk 0 (1/20))).cursor
          - 0 := by
  constructor
  · rfl
  · simp only [talkStep, schedStart]
    norm_num

/-- C5 amended: the indicator is a separate boolean: every inbound chunk
sets it (and advances the cursor by the scheduling rule), and an
end-of-playback notification clears it exactly when the output clock has
come within the 0.1 s guard of the horizon, leaving it untouched (and
the cursor unchanged) while more than the guard of audio remains
scheduled. -/
theorem isTalking_set_per_chunk_cleared_on_ended (st : TalkState) (t d : ℚ) :
    (talkStep st (TalkEvent.chunk t d)).isTalking = true ∧
    (talkStep st (TalkEvent.chunk t d)).cursor = schedStart st.cursor t + d ∧
    (talkStep st (TalkEvent.ended t)).cursor = st.cursor ∧
    ((talkStep st (TalkEvent.ended t)).isTalking = false ↔
      (st.cursor - 1/10 ≤ t ∨ st.isTalking = false)) := by
  refine ⟨rfl, rfl, ?_, ?_⟩
  · simp only [talkStep]
    split <;> rfl
  · simp only [talkStep]
    split
    · rename_i hg
      simp only [show ({ st with isTalking := false } : TalkState).isTalking = false
        from rfl]
      constructor
      · intro _
        left
        linarith
      · intro _
        trivial
    · rename_i hg
      constructor
      · intro hfalse
        right
        exact hfalse
      · intro hor
        rcases hor with hor | hor
        · exact absurd (by linarith : st.cursor - 1/10 ≤ t) hg
        · exact hor

/-- Witness for the amended C5 at the concrete state with a 1 s horizon
and the indicator set, receiving a chunk and an end notification at
clock time 0. -/
theorem isTalking_set_per_chunk_cleared_on_ended_witness :
    (talkStep { cursor := 1, isTalking := true } (TalkEvent.chunk 0 1)).isTalking = true ∧
    (talkStep { cursor := 1, isTalking := true } (TalkEvent.chunk 0 1)).cursor
        = schedStart 1 0 + 1 ∧
    (talkStep { cursor := 1, isTalking := true } (TalkEvent.ended 0)).cursor = 1 ∧
    ((talkStep { cursor := 1, isTalking := true } (TalkEvent.ended 0)).isTalking = false ↔
      ((1 : ℚ) - 1/10 ≤ 0 ∨ (true : Bool) = false)) :=
  isTalking_set_per_chunk_cleared_on_ended { cursor := 1, isTalking := true } 0 1

/-! ## Sample encoder / decoder (utils/audioUtils)

The file utils/audioUtils.ts (createPcmBlob, decodeAudioData,
base64ToUint8Array) is imported by the sources but is not itself among
the available sources, so the codec is modelled from the spec (sections
4.1 and 4.2). The base64 transport wrapper is a bijective byte
transport; the encoded chunk is modelled as the raw byte sequence. -/

/-- Modelled from the spec: clamping of one sample to the interval
[-1, 1], the first step of the encoder of §4.1 (utils/audioUtils
createPcmBlob is missing from the sources). -/
def clampSample (x : ℚ) : ℚ := max (-1) (min 1 x)

/-- Modelled from the spec: §4.1 scales each clamped sample to the
16-bit signed integer range; the nearest 16-bit value is taken. -/
def quantize (x : ℚ) : ℤ := round (clampSample x * 32767)

/-- Modelled from the spec: §4.1 writes each 16-bit value as two
little-endian bytes (two's complement). -/
def int16ToBytes (i : ℤ) : List ℕ :=
  [(i % 65536).toNat % 256, (i % 65536).toNat / 256]

/-- Modelled from the spec: the Sample Encoder of §4.1 — clamp, scale to
16-bit signed, write little-endian bytes into one contiguous buffer
(utils/audioUtils createPcmBlob is missing from the sources). -/
def createPcmBlob (frame : List ℚ) : List ℕ :=
  (frame.map (fun x => int16ToBytes (quantize x))).flatten

/-- Modelled from the spec: reading one little-endian 16-bit sample back
from two bytes (two's complement). -/
def bytesToInt16 (lo hi : ℕ) : ℤ :=
  if lo + 256 * hi < 32768 then ((lo + 256 * hi : ℕ) : ℤ)
  else ((lo + 256 * hi : ℕ) : ℤ) - 65536

inductive DecodeError
  | misaligned
deriving DecidableEq, Repr

/-- Modelled from the spec: §4.2 reinterprets consecutive byte pairs as
16-bit PCM samples, normalized back to [-1, 1]. -/
def decodeSamples : List ℕ → List ℚ
  | [] => []
  | [_] => []
  | lo :: hi :: rest => ((bytesToInt16 lo hi : ℚ) / 32767) :: decodeSamples rest

/-- Modelled from the spec: the Sample Decoder of §4.2 — fails with
DecodeError if the byte length is not a whole multiple of 2, otherwise
yields the decoded samples (utils/audioUtils decodeAudioData is missing
from the sources). -/
def decodePcm16 (bytes : List ℕ) : Except DecodeError (List ℚ) :=
  if bytes.length % 2 = 0 then Except.ok (decodeSamples bytes)
  else Except.error DecodeError.misaligned

theorem clampSample_eq_of_mem (x : ℚ) (h1 : -1 ≤ x) (h2 : x ≤ 1) :
    clampSample x = x := by
  unfold clampSample
  rw [min_eq_right h2, max_eq_right h1]

theorem quantize_range (x : ℚ) : -32767 ≤ quantize x ∧ quantize x ≤ 32767 := by
  have hlo : -1 ≤ clampSample x := le_max_left (-1) (min 1 x)
  have hhi : clampSample x ≤ 1 := max_le (by norm_num) (min_le_left 1 x)
  have hylo : (-32767 : ℚ) ≤ clampSample x * 32767 := by nlinarith
  have hyhi : clampSample x * 32767 ≤ 32767 := by nlinarith
  unfold quantize
  constructor
  · have : (-32767 : ℤ) ≤ round (clampSample x * 32767) := by
      rw [round_eq]
      refine Int.le_floor.mpr ?_
      push_cast
      linarith
    exact this
  · have : round (clampSample x * 32767) < 32768 := by
      rw [round_eq]
      refine Int.floor_lt.mpr ?_
      push_cast
      linarith
    omega

theorem bytesToInt16_int16ToBytes (i : ℤ) (h1 : -32768 ≤ i) (h2 : i ≤ 32767) :
    bytesToInt16 ((i % 65536).toNat % 256) ((i % 65536).toNat / 256) = i := by
  simp only [bytesToInt16, Nat.mod_add_div]
  split <;> omega

theorem createPcmBlob_cons (x : ℚ) (rest : List ℚ) :
    createPcmBlob (x :: rest)
      = (quantize x % 65536).toNat % 256 :: (quantize x % 65536).toNat / 256
        :: createPcmBlob rest := rfl

theorem createPcmBlob_length (frame : List ℚ) :
    (createPcmBlob frame).length = 2 * frame.length := by
  induction frame with
  | nil => rfl
  | cons x rest ih =>
      rw [createPcmBlob_cons]
      simp [ih]
      omega

theorem decodeSamples_createPcmBlob (frame : List ℚ) :
    decodeSamples (createPcmBlob frame)
      = frame.map (fun x => ((quantize x : ℚ) / 32767)) := by
  induction frame with
  | nil => rfl
  | cons x rest ih =>
      rw [createPcmBlob_cons]
      simp only [decodeSamples, List.map_cons]
      rw [ih, bytesToInt16_int16ToBytes (quantize x)
        (by have := (quantize_range x).1; omega)
        (quantize_range x).2]

theorem quantize_error (x : ℚ) (h1 : -1 ≤ x) (h2 : x ≤ 1) :
    |(quantize x : ℚ) / 32767 - x| ≤ 1 / 32768 := by
  unfold quantize
  rw [clampSample_eq_of_mem x h1 h2]
  have hr : |x * 32767 - (round (x * 32767) : ℚ)| ≤ 1 / 2 :=
    abs_sub_round (x * 32767)
  have heq : (round (x * 32767) : ℚ) / 32767 - x
      = ((round (x * 32767) : ℚ) - x * 32767) / 32767 := by ring
  rw [heq, abs_div]
  rw [abs_sub_comm] at hr
  have h32 : |(32767 : ℚ)| = 32767 := by norm_num
  rw [h32]
  calc |(round (x * 32767) : ℚ) - x * 32767| / 32767
      ≤ (1 / 2) / 32767 := by
        apply (div_le_div_iff_of_pos_right (by norm_num : (0 : ℚ) < 32767)).mpr hr
    _ ≤ 1 / 32768 := by norm_num

theorem roundtrip_pointwise (frame : List ℚ)
    (hf : ∀ x ∈ frame, -1 ≤ x ∧ x ≤ 1) (i : ℕ) :
    |((frame.map (fun x => (quantize x : ℚ) / 32767)).getD i 0)
        - frame.getD i 0| ≤ 1 / 32768 := by
  induction frame generalizing i with
  | nil =>
      simp only [List.map_nil, List.getD]
      norm_num
  | cons x rest ih =>
      cases i with
      | zero =>
          have hx := hf x (List.mem_cons_self x rest)
          simpa using quantize_error x hx.1 hx.2
      | succ n =>
          simpa using ih (fun y hy => hf y (List.mem_cons_of_mem x hy)) n

/-- C4: for every frame of samples in [-1, 1], decoding the chunk
produced by the encoder yields exactly as many samples as the frame,
each within 1/32768 of the corresponding original (the 16-bit
quantization bound); the encoder is total on frames, with no error
conditions. -/
theorem encode_decode_roundtrip (frame : List ℚ)
    (hf : ∀ x ∈ frame, -1 ≤ x ∧ x ≤ 1) :
    ∃ samples, decodePcm16 (createPcmBlob frame) = Except.ok samples ∧
      samples.length = frame.length ∧
      ∀ i, |samples.getD i 0 - frame.getD i 0| ≤ 1 / 32768 := by
  refine ⟨frame.map (fun x => (quantize x : ℚ) / 32767), ?_, ?_, ?_⟩
  · unfold decodePcm16
    rw [if_pos, decodeSamples_createPcmBlob]
    rw [createPcmBlob_length]
    omega
  · simp
  · exact fun i => roundtrip_pointwise frame hf i

/-- Witness for C4 at the concrete frame [0, 1/2, -1, 1]. -/
theorem encode_decode_roundtrip_witness :
    (∀ x ∈ [(0 : ℚ), 1/2, -1, 1], -1 ≤ x ∧ x ≤ 1) ∧
    (∃ samples, decodePcm16 (createPcmBlob [(0 : ℚ), 1/2, -1, 1])
        = Except.ok samples ∧
      samples.length = ([(0 : ℚ), 1/2, -1, 1] : List ℚ).length ∧
      ∀ i, |samples.getD i 0 - ([(0 : ℚ), 1/2, -1, 1] : List ℚ).getD i 0|
        ≤ 1 / 32768) := by
  have h : ∀ x ∈ [(0 : ℚ), 1/2, -1, 1], -1 ≤ x ∧ x ≤ 1 := by
    intro x hx
    simp only [List.mem_cons, List.not_mem_nil, or_false] at hx
    rcases hx with h1 | h1 | h1 | h1 <;> rw [h1] <;> norm_num
  exact ⟨h, encode_decode_roundtrip _ h⟩

theorem decodeSamples_length :
    ∀ bytes : List ℕ, (decodeSamples bytes).length = bytes.length / 2
  | [] => rfl
  | [_] => by
      simp only [decodeSamples, List.length_nil, List.length_cons]
  | lo :: hi :: rest => by
      simp only [decodeSamples, List.length_cons]
      rw [decodeSamples_length rest]
      omega

/-! ## Inbound chunk handling in avatar mode (VoiceAvatarModal.onAudioData)

Source: the async onAudioData callback sets isTalking, decodes the chunk
(decodeAudioData at 24000 Hz, mono — the buffer's duration is the sample
count over 24000), and schedules the resulting buffer on the cursor.
There is no try/catch and no cross-invocation state besides the cursor,
the indicator and the schedule, so a decode failure aborts only its own
invocation: nothing is scheduled, the cursor is untouched, the session
is not closed, and the rejection is surfaced; later chunks are handled
independently. The decoder itself is modelled from the spec (§4.2). -/

structure ModalState where
  cursor : ℚ
  isTalking : Bool
  decodeErrors : ℕ
  scheduledStarts : List ℚ
  sessionClosed : Bool
deriving DecidableEq, Repr

def onAudioChunk (st : ModalState) (bytes : List ℕ) (clock : ℚ) : ModalState :=
  let st1 := { st with isTalking := true }
  match decodePcm16 bytes with
  | Except.error _ => { st1 with decodeErrors := st1.decodeErrors + 1 }
  | Except.ok samples =>
      { st1 with
          cursor := schedStart st1.cursor clock + (samples.length : ℚ) / 24000
          scheduledStarts := st1.scheduledStarts ++ [schedStart st1.cursor clock] }

/-- C6: a malformed inbound chunk (odd byte length) fails with a
DecodeError surfaced for that chunk only: the session is not terminated,
nothing is scheduled and the cursor is untouched (the chunk is dropped),
and a subsequent valid chunk still decodes and schedules by the normal
rule, its duration being its sample count over the 24 kHz rate. -/
theorem malformed_chunk_isolated (st : ModalState) (bytes bytes2 : List ℕ)
    (h : bytes.length % 2 = 1) (h2 : bytes2.length % 2 = 0) (t t2 : ℚ) :
    ((onAudioChunk st bytes t).decodeErrors = st.decodeErrors + 1 ∧
     (onAudioChunk st bytes t).cursor = st.cursor ∧
     (onAudioChunk st bytes t).scheduledStarts = st.scheduledStarts ∧
     (onAudioChunk st bytes t).sessionClosed = st.sessionClosed) ∧
    ((onAudioChunk (onAudioChunk st bytes t) bytes2 t2).decodeErrors
        = (onAudioChunk st bytes t).decodeErrors ∧
     (onAudioChunk (onAudioChunk st bytes t) bytes2 t2).scheduledStarts
        = st.scheduledStarts ++ [schedStart st.cursor t2] ∧
     (onAudioChunk (onAudioChunk st bytes t) bytes2 t2).cursor
        = schedStart st.cursor t2 + ((bytes2.length / 2 : ℕ) : ℚ) / 24000 ∧
     (onAudioChunk (onAudioChunk st bytes t) bytes2 t2).sessionClosed
        = st.sessionClosed) := by
  have hodd : ¬ bytes.length % 2 = 0 := by omega
  have hdec : decodePcm16 bytes = Except.error DecodeError.misaligned := by
    simp [decodePcm16, hodd]
  have hdec2 : decodePcm16 bytes2 = Except.ok (decodeSamples bytes2) := by
    simp [decodePcm16, h2]
  have hfirst : onAudioChunk st bytes t
      = { st with isTalking := true, decodeErrors := st.decodeErrors + 1 } := by
    simp [onAudioChunk, hdec]
  refine ⟨⟨?_, ?_, ?_, ?_⟩, ?_⟩
  · rw [hfirst]
  · rw [hfirst]
  · rw [hfirst]
  · rw [hfirst]
  · rw [hfirst]
    simp [onAudioChunk, hdec2, decodeSamples_length]

/-- Initial scheduler-and-indicator state of the avatar modal. -/
def initModalState : ModalState :=
  { cursor := 0
    isTalking := false
    decodeErrors := 0
    scheduledStarts := []
    sessionClosed := false }

/-- Witness for C6: a one-byte malformed chunk followed by a valid
two-byte chunk, both arriving at clock time 0. -/
theorem malformed_chunk_isolated_witness :
    (([0] : List ℕ).length % 2 = 1 ∧ ([0, 0] : List ℕ).length % 2 = 0) ∧
    (((onAudioChunk initModalState [0] 0).decodeErrors
          = initModalState.decodeErrors + 1 ∧
      (onAudioChunk initModalState [0] 0).cursor = initModalState.cursor ∧
      (onAudioChunk initModalState [0] 0).scheduledStarts
          = initModalState.scheduledStarts ∧
      (onAudioChunk initModalState [0] 0).sessionClosed
          = initModalState.sessionClosed) ∧
     ((onAudioChunk (onAudioChunk initModalState [0] 0) [0, 0] 0).decodeErrors
         = (onAudioChunk initModalState [0] 0).decodeErrors ∧
      (onAudioChunk (onAudioChunk initModalState [0] 0) [0, 0] 0).scheduledStarts
         = initModalState.scheduledStarts
             ++ [schedStart initModalState.cursor 0] ∧
      (onAudioChunk (onAudioChunk initModalState [0] 0) [0, 0] 0).cursor
         = schedStart initModalState.cursor 0
             + ((([0, 0] : List ℕ).length / 2 : ℕ) : ℚ) / 24000 ∧
      (onAudioChunk (onAudioChunk initModalState [0] 0) [0, 0] 0).sessionClosed
         = initModalState.sessionClosed)) := by
  have h : ([0] : List ℕ).length % 2 = 1 := rfl
  have h2 : ([0, 0] : List ℕ).length % 2 = 0 := rfl
  exact ⟨⟨h, h2⟩, malformed_chunk_isolated initModalState [0] [0, 0] h h2 0 0⟩

/-! ## Dictation-mode inbound handler (startLiveDictation)

Source (services/geminiService.ts):

  onmessage: (msg: LiveServerMessage) => {
    const text = msg.serverContent?.inputTranscription?.text;
    if (text) onTranscription(text);
  },

The only callback the dictation handler ever invokes on a message is
onTranscription, and only when the message carries a non-empty
transcription text; the modelTurn audio a message may carry is never
delivered. A message is modelled by its two payload fields. -/

structure LiveServerMessage where
  modelTurnAudio : Option String
  inputTranscription : Option String
deriving DecidableEq, Repr

inductive CallerEvent
  | audioChunk (base64 : String)
  | transcription (text : String)
deriving DecidableEq, Repr

def dictationOnMessage (msg : LiveServerMessage) : List CallerEvent :=
  match msg.inputTranscription with
  | some t => if t = "" then [] else [CallerEvent.transcription t]
  | none => []

/-- C8: in dictation mode, every event delivered to the caller is a
transcription text fragment: for each inbound message either no callback
fires, or exactly one transcription callback fires carrying the
message's non-empty transcription text — in particular no audio data is
ever delivered, whatever audio payload the message carries. -/
theorem dictation_delivers_only_transcription (msg : LiveServerMessage) :
    dictationOnMessage msg = [] ∨
    ∃ t, msg.inputTranscription = some t ∧ ¬ t = "" ∧
      dictationOnMessage msg = [CallerEvent.transcription t] := by
  cases hm : msg.inputTranscription with
  | none =>
      left
      simp [dictationOnMessage, hm]
  | some t =>
      by_cases ht : t = ""
      · left
        simp [dictationOnMessage, hm, ht]
      · right
        exact ⟨t, rfl, ht, by simp [dictationOnMessage, hm, ht]⟩


end DrNex
